import Mathlib

/-!
# SpeedyFibonacci — benchmark execution and timing engine, shallow embedding

This file embeds the core of the SpeedyFibonacci repository in Lean 4 and
proves properties of it:

* `src/benchmarking/timer.py` — `TimingResult`, `PrecisionTimer.run_for_duration`;
* `src/benchmarking/benchmark_runner.py` — `BenchmarkResult`, `BenchmarkSummary`
  and its derived views, `BenchmarkRunner.run_single`;
* `src/benchmarking/validators.py` — `validate_result`, `compute_fibonacci_reference`;
* `src/utils/constants.py` — `KNOWN_FIBONACCI`.

Modelling conventions:

* Wall-clock time is abstracted by a function `elapsed : Nat → ℚ` giving the
  value of the Python expression `time.perf_counter() - start_time` at its
  i-th evaluation after the loop starts (evaluations 0, 1, 2, … are the
  while-condition checks; one final evaluation yields `actual_duration`).
  Rationals replace floats; no claim here depends on float rounding.
* A Python call that may raise is modelled by `CallResult`: either `ok v` or
  `raises e` where `e : PyError` records the exception's type name, its
  `str(e)` message, and the list of class names it is an instance of (its
  method-resolution order), so the ordered `except` chain can be modelled as
  an ordered test, first match winning.  Raised exceptions are assumed to be
  instances of `Exception` (the catch-all branch of the source), which holds
  for every exception raised by the repository's technique code.
* The unbounded `while` loop is modelled by structural recursion on a fuel
  parameter; `none` means the fuel was exhausted before the loop exited, and
  every theorem about a finished run takes `= some r` as hypothesis or
  provides enough fuel.
-/

/-- A Python exception value: its type name, its `str` message, and the class
names it is an instance of (in method-resolution order). -/
structure PyError where
  typeName : String
  msg : String
  mro : List String
deriving DecidableEq

/-- Outcome of calling a Python function: a normal return or a raised
exception. -/
inductive CallResult (α : Type) where
  | ok (v : α)
  | raises (e : PyError)
deriving DecidableEq

/-- `TimingResult` dataclass from `src/benchmarking/timer.py`. -/
structure TimingResult where
  count : Nat
  max_n : Int
  actual_duration : ℚ
  error : Option String
deriving DecidableEq

/-- The ordered `except` chain of `PrecisionTimer.run_for_duration`
(`timer.py` lines 93-100): `RecursionError`, then `MemoryError`, then
`OverflowError`, then the catch-all `except Exception`, each formatting the
error message with the current loop index `n`. -/
def classify_error (e : PyError) (n : Int) : String :=
  if e.mro.contains "RecursionError" then "RecursionError at n=" ++ toString n
  else if e.mro.contains "MemoryError" then "MemoryError at n=" ++ toString n
  else if e.mro.contains "OverflowError" then "OverflowError at n=" ++ toString n
  else e.typeName ++ " at n=" ++ toString n ++ ": " ++ e.msg

/-- The message set by the validation-failure branch (`timer.py` line 87). -/
def validationMsg (n : Int) : String :=
  "Validation failed at n=" ++ toString n

/-- The epilogue of `run_for_duration` (`timer.py` lines 102-110):
`max_n = n - 1 if count > 0 else 0`, packaged with the final clock reading. -/
def finishTiming (count : Nat) (n : Int) (dur : ℚ) (err : Option String) : TimingResult :=
  { count := count
    max_n := if 0 < count then n - 1 else 0
    actual_duration := dur
    error := err }

/-- The `while` loop of `run_for_duration` (`timer.py` lines 80-100), fuel
indexed.  State: `k` is the index of the next clock evaluation, `n` the next
input, `count` the successes so far.  Each iteration checks the deadline,
calls `func n`, optionally validates, and either stops with a finished
`TimingResult` or continues with `count` and `n` incremented. -/
def runLoop {α : Type} (duration : ℚ) (func : Int → CallResult α)
    (validate_func : Option (Int → α → Bool)) (elapsed : Nat → ℚ) :
    Nat → Nat → Int → Nat → Option TimingResult
  | 0, _, _, _ => none
  | fuel + 1, k, n, count =>
    if elapsed k < duration then
      match func n with
      | .raises e => some (finishTiming count n (elapsed (k + 1)) (some (classify_error e n)))
      | .ok v =>
        match validate_func with
        | some p =>
          if p n v then
            runLoop duration func validate_func elapsed fuel (k + 1) (n + 1) (count + 1)
          else
            some (finishTiming count n (elapsed (k + 1)) (some (validationMsg n)))
        | none =>
          runLoop duration func validate_func elapsed fuel (k + 1) (n + 1) (count + 1)
    else
      some (finishTiming count n (elapsed (k + 1)) none)

/-- `PrecisionTimer.run_for_duration` (`timer.py` lines 55-110): start at index
`start_n` with `count = 0` and clock evaluation 0. -/
def run_for_duration {α : Type} (duration : ℚ) (func : Int → CallResult α)
    (start_n : Int) (validate_func : Option (Int → α → Bool))
    (elapsed : Nat → ℚ) (fuel : Nat) : Option TimingResult :=
  runLoop duration func validate_func elapsed fuel 0 start_n 0

/-- A call at index `n` that returns normally and is accepted by the optional
validation predicate (vacuously accepted when no predicate is supplied). -/
def stepOk {α : Type} (func : Int → CallResult α)
    (validate_func : Option (Int → α → Bool)) (n : Int) : Prop :=
  ∃ v, func n = CallResult.ok v ∧ ∀ p, validate_func = some p → p n v = true

/-- One-step lemma: the deadline has passed, so the loop exits with no error. -/
theorem runLoop_succ_timeout {α : Type} (duration : ℚ) (func : Int → CallResult α)
    (validate_func : Option (Int → α → Bool)) (elapsed : Nat → ℚ)
    (fuel k : Nat) (n : Int) (count : Nat) (hc : ¬ elapsed k < duration) :
    runLoop duration func validate_func elapsed (fuel + 1) k n count =
      some (finishTiming count n (elapsed (k + 1)) none) := by
  rw [runLoop, if_neg hc]

/-- One-step lemma: the call raises, so the loop exits with the classified
error at the current index. -/
theorem runLoop_succ_raises {α : Type} (duration : ℚ) (func : Int → CallResult α)
    (validate_func : Option (Int → α → Bool)) (elapsed : Nat → ℚ)
    (fuel k : Nat) (n : Int) (count : Nat) (err : PyError)
    (hc : elapsed k < duration) (hfv : func n = CallResult.raises err) :
    runLoop duration func validate_func elapsed (fuel + 1) k n count =
      some (finishTiming count n (elapsed (k + 1)) (some (classify_error err n))) := by
  rw [runLoop, if_pos hc, hfv]

/-- One-step lemma: the call succeeds and passes (or skips) validation, so the
loop continues with `count` and `n` incremented. -/
theorem runLoop_succ_ok {α : Type} (duration : ℚ) (func : Int → CallResult α)
    (validate_func : Option (Int → α → Bool)) (elapsed : Nat → ℚ)
    (fuel k : Nat) (n : Int) (count : Nat) (v : α)
    (hc : elapsed k < duration) (hfv : func n = CallResult.ok v)
    (hval : ∀ p, validate_func = some p → p n v = true) :
    runLoop duration func validate_func elapsed (fuel + 1) k n count =
      runLoop duration func validate_func elapsed fuel (k + 1) (n + 1) (count + 1) := by
  rw [runLoop, if_pos hc, hfv]
  cases hvf : validate_func with
  | none => rfl
  | some p => simp [hval p hvf]

/-- One-step lemma: the call succeeds but the validation predicate rejects it,
so the loop exits with the validation message, `count` not incremented. -/
theorem runLoop_succ_valfail {α : Type} (duration : ℚ) (func : Int → CallResult α)
    (p : Int → α → Bool) (elapsed : Nat → ℚ)
    (fuel k : Nat) (n : Int) (count : Nat) (v : α)
    (hc : elapsed k < duration) (hfv : func n = CallResult.ok v)
    (hp : p n v = false) :
    runLoop duration func (some p) elapsed (fuel + 1) k n count =
      some (finishTiming count n (elapsed (k + 1)) (some (validationMsg n))) := by
  rw [runLoop, if_pos hc, hfv]
  simp [hp]

/-- Running the loop through `N` successful, validated iterations advances the
state in lockstep: clock index, input index and count all increase by `N`. -/
theorem runLoop_prefix {α : Type} (duration : ℚ) (func : Int → CallResult α)
    (validate_func : Option (Int → α → Bool)) (elapsed : Nat → ℚ) :
    ∀ (N fuel k : Nat) (n : Int) (count : Nat),
      (∀ i : Nat, i < N → elapsed (k + i) < duration) →
      (∀ i : Nat, i < N → stepOk func validate_func (n + i)) →
      runLoop duration func validate_func elapsed (N + fuel) k n count =
        runLoop duration func validate_func elapsed fuel (k + N) (n + N) (count + N) := by
  intro N
  induction N with
  | zero => intro fuel k n count _ _; simp
  | succ N ih =>
    intro fuel k n count hclk hok
    have hc0 : elapsed k < duration := by simpa using hclk 0 (Nat.succ_pos N)
    obtain ⟨v, hfv, hval⟩ : stepOk func validate_func n := by
      simpa using hok 0 (Nat.succ_pos N)
    have hstep := runLoop_succ_ok duration func validate_func elapsed
      (N + fuel) k n count v hc0 hfv hval
    have hrec := ih fuel (k + 1) (n + 1) (count + 1)
      (fun i hi => by
        have := hclk (i + 1) (by omega)
        simpa [Nat.add_assoc, Nat.add_comm 1 i] using this)
      (fun i hi => by
        have := hok (i + 1) (by omega)
        have harith : n + (↑(i + 1) : Int) = n + 1 + i := by push_cast; ring
        rwa [harith] at this)
    have hshift : N + 1 + fuel = N + fuel + 1 := by omega
    rw [hshift, hstep, hrec]
    have h1 : k + 1 + N = k + (N + 1) := by omega
    have h2 : n + 1 + (N : Int) = n + ((N : Nat) + 1 : Nat) := by push_cast; ring
    have h3 : count + 1 + N = count + (N + 1) := by omega
    rw [h1, h2, h3]

/-- Whenever the loop finishes from state `(n, count)`, it did some `j`
further successful iterations: the final count is `count + j` and `max_n` is
`n + j - 1` when the final count is positive, else the sentinel `0`. -/
theorem runLoop_count_max {α : Type} (duration : ℚ) (func : Int → CallResult α)
    (validate_func : Option (Int → α → Bool)) (elapsed : Nat → ℚ) :
    ∀ (fuel k : Nat) (n : Int) (count : Nat) (r : TimingResult),
      runLoop duration func validate_func elapsed fuel k n count = some r →
      ∃ j : Nat, r.count = count + j ∧
        r.max_n = if 0 < count + j then n + (j : Int) - 1 else 0 := by
  intro fuel
  induction fuel with
  | zero => intro k n count r h; simp [runLoop] at h
  | succ fuel ih =>
    intro k n count r h
    by_cases hc : elapsed k < duration
    · cases hfv : func n with
      | raises e =>
        rw [runLoop_succ_raises duration func validate_func elapsed fuel k n count e hc hfv] at h
        refine ⟨0, ?_⟩
        cases h
        simp [finishTiming]
      | ok v =>
        cases hvf : validate_func with
        | none =>
          rw [hvf] at h
          rw [runLoop_succ_ok duration func none elapsed fuel k n count v hc hfv
            (fun p hp => by cases hp)] at h
          rw [← hvf] at h
          obtain ⟨j, hcount, hmax⟩ := ih (k + 1) (n + 1) (count + 1) r h
          refine ⟨j + 1, by omega, ?_⟩
          rw [hmax]
          have hcond : (0 < count + 1 + j) ↔ (0 < count + (j + 1)) := by omega
          have hval : n + 1 + (j : Int) - 1 = n + ((j : Nat) + 1 : Nat) - 1 := by push_cast; ring
          by_cases hpos : 0 < count + 1 + j
          · rw [if_pos hpos, if_pos (hcond.mp hpos), hval]
          · rw [if_neg hpos, if_neg (fun hcj => hpos (hcond.mpr hcj))]
        | some p =>
          by_cases hp : p n v = true
          · rw [hvf] at h
            rw [runLoop_succ_ok duration func (some p) elapsed fuel k n count v hc hfv
              (fun q hq => by cases hq; exact hp)] at h
            rw [← hvf] at h
            obtain ⟨j, hcount, hmax⟩ := ih (k + 1) (n + 1) (count + 1) r h
            refine ⟨j + 1, by omega, ?_⟩
            rw [hmax]
            have hcond : (0 < count + 1 + j) ↔ (0 < count + (j + 1)) := by omega
            have hval : n + 1 + (j : Int) - 1 = n + ((j : Nat) + 1 : Nat) - 1 := by push_cast; ring
            by_cases hpos : 0 < count + 1 + j
            · rw [if_pos hpos, if_pos (hcond.mp hpos), hval]
            · rw [if_neg hpos, if_neg (fun hcj => hpos (hcond.mpr hcj))]
          · rw [hvf] at h
            rw [runLoop_succ_valfail duration func p elapsed fuel k n count v hc hfv
              (by simpa using hp)] at h
            refine ⟨0, ?_⟩
            cases h
            simp [finishTiming]
    · rw [runLoop_succ_timeout duration func validate_func elapsed fuel k n count hc] at h
      refine ⟨0, ?_⟩
      cases h
      simp [finishTiming]

/-- **C3.** Every finished `run_for_duration` call satisfies the `max_n`
contract regardless of how the loop exited: `max_n = start_n + count - 1`
when `count > 0`, and `max_n = 0` (the "none completed" sentinel) when
`count = 0`. -/
theorem run_for_duration_max_n {α : Type} (duration : ℚ)
    (func : Int → CallResult α) (start_n : Int)
    (validate_func : Option (Int → α → Bool)) (elapsed : Nat → ℚ) (fuel : Nat)
    (r : TimingResult)
    (h : run_for_duration duration func start_n validate_func elapsed fuel = some r) :
    (0 < r.count → r.max_n = start_n + (r.count : Int) - 1) ∧
      (r.count = 0 → r.max_n = 0) := by
  obtain ⟨j, hcount, hmax⟩ :=
    runLoop_count_max duration func validate_func elapsed fuel 0 start_n 0 r h
  constructor
  · intro hpos
    have hj : 0 < 0 + j := by omega
    rw [hmax, if_pos hj, hcount]
    push_cast
    ring
  · intro hzero
    have hj : j = 0 := by omega
    rw [hmax, hj]
    simp

/-- Witness for C3: a concrete two-iteration run (deadline expires at the
third check) has `count = 2` and `max_n = 0 + 2 - 1 = 1`. -/
theorem run_for_duration_max_n_witness :
    0 < (⟨2, 1, 2, none⟩ : TimingResult).count ∧
    (⟨2, 1, 2, none⟩ : TimingResult).max_n =
      0 + (((⟨2, 1, 2, none⟩ : TimingResult).count : Nat) : Int) - 1 := by
  have hrun : run_for_duration (1 : ℚ) (fun n => CallResult.ok n) 0 none
      (fun k => if k < 2 then (0 : ℚ) else 2) 5 = some ⟨2, 1, 2, none⟩ := by
    decide
  have h := run_for_duration_max_n (1 : ℚ) (fun n => CallResult.ok n) 0 none
    (fun k => if k < 2 then (0 : ℚ) else 2) 5 ⟨2, 1, 2, none⟩ hrun
  exact ⟨by decide, h.1 (by decide)⟩

/-- If the loop finishes from state `(n, count)` with a non-`none` error, the
failing call happened after `j` further successes, at input `n + j`, and the
error message is the one built for exactly that index: either the classified
tag of a raised exception or the validation-failure message. -/
theorem runLoop_error_src {α : Type} (duration : ℚ) (func : Int → CallResult α)
    (validate_func : Option (Int → α → Bool)) (elapsed : Nat → ℚ) :
    ∀ (fuel k : Nat) (n : Int) (count : Nat) (r : TimingResult),
      runLoop duration func validate_func elapsed fuel k n count = some r →
      r.error ≠ none →
      ∃ j : Nat, r.count = count + j ∧
        ((∃ err, func (n + (j : Int)) = CallResult.raises err ∧
            r.error = some (classify_error err (n + (j : Int)))) ∨
          (∃ p v, validate_func = some p ∧
            func (n + (j : Int)) = CallResult.ok v ∧ p (n + (j : Int)) v = false ∧
            r.error = some (validationMsg (n + (j : Int))))) := by
  intro fuel
  induction fuel with
  | zero => intro k n count r h _; simp [runLoop] at h
  | succ fuel ih =>
    intro k n count r h herr
    by_cases hc : elapsed k < duration
    · cases hfv : func n with
      | raises e =>
        rw [runLoop_succ_raises duration func validate_func elapsed fuel k n count e hc hfv] at h
        cases h
        exact ⟨0, by simp [finishTiming], Or.inl ⟨e, by simpa using hfv, by simp [finishTiming]⟩⟩
      | ok v =>
        cases hvf : validate_func with
        | none =>
          rw [hvf] at h
          rw [runLoop_succ_ok duration func none elapsed fuel k n count v hc hfv
            (fun p hp => by cases hp)] at h
          rw [← hvf] at h
          obtain ⟨j, hcount, hsrc⟩ := ih (k + 1) (n + 1) (count + 1) r h herr
          refine ⟨j + 1, by omega, ?_⟩
          have harith : n + 1 + (j : Int) = n + ((j : Nat) + 1 : Nat) := by push_cast; ring
          rw [harith, hvf] at hsrc
          exact hsrc
        | some p =>
          by_cases hp : p n v = true
          · rw [hvf] at h
            rw [runLoop_succ_ok duration func (some p) elapsed fuel k n count v hc hfv
              (fun q hq => by cases hq; exact hp)] at h
            rw [← hvf] at h
            obtain ⟨j, hcount, hsrc⟩ := ih (k + 1) (n + 1) (count + 1) r h herr
            refine ⟨j + 1, by omega, ?_⟩
            have harith : n + 1 + (j : Int) = n + ((j : Nat) + 1 : Nat) := by push_cast; ring
            rw [harith, hvf] at hsrc
            exact hsrc
          · rw [hvf] at h
            rw [runLoop_succ_valfail duration func p elapsed fuel k n count v hc hfv
              (by simpa using hp)] at h
            cases h
            refine ⟨0, by simp [finishTiming], Or.inr ⟨p, v, rfl, ?_, ?_, ?_⟩⟩
            · simpa using hfv
            · simpa using hp
            · simp [finishTiming]
    · rw [runLoop_succ_timeout duration func validate_func elapsed fuel k n count hc] at h
      cases h
      simp [finishTiming] at herr

/-- **C10.** Lockstep invariant: whenever a finished `run_for_duration` call
returns a non-`none` error, the failing call is at exactly index
`start_n + count` — either `func` raised there and the error is the classified
tag for that index, or the validation predicate rejected the result there and
the error is the validation message for that index.  (The `count` successful
calls used inputs `start_n` … `start_n + count - 1`, which is claim C3's
`max_n` contract.) -/
theorem run_for_duration_error_at_count {α : Type} (duration : ℚ)
    (func : Int → CallResult α) (start_n : Int)
    (validate_func : Option (Int → α → Bool)) (elapsed : Nat → ℚ) (fuel : Nat)
    (r : TimingResult)
    (h : run_for_duration duration func start_n validate_func elapsed fuel = some r)
    (herr : r.error ≠ none) :
    (∃ err, func (start_n + (r.count : Int)) = CallResult.raises err ∧
        r.error = some (classify_error err (start_n + (r.count : Int)))) ∨
      (∃ p v, validate_func = some p ∧
        func (start_n + (r.count : Int)) = CallResult.ok v ∧
        p (start_n + (r.count : Int)) v = false ∧
        r.error = some (validationMsg (start_n + (r.count : Int)))) := by
  obtain ⟨j, hcount, hsrc⟩ :=
    runLoop_error_src duration func validate_func elapsed fuel 0 start_n 0 r h herr
  have hj : r.count = j := by omega
  rw [hj]
  exact hsrc

/-- Witness for C10: a run whose third call raises a `ValueError` after two
successes fails at index `0 + 2` with the generic classified tag. -/
theorem run_for_duration_error_at_count_witness :
    (∃ err, (fun n : Int => if n < 2 then CallResult.ok n
        else CallResult.raises ⟨"ValueError", "boom", ["ValueError", "Exception"]⟩)
          ((0 : Int) + ((2 : Nat) : Int)) = CallResult.raises err ∧
      (some "ValueError at n=2: boom" : Option String) =
        some (classify_error err ((0 : Int) + ((2 : Nat) : Int)))) ∨
    (∃ p v, (none : Option (Int → Int → Bool)) = some p ∧
      (fun n : Int => if n < 2 then CallResult.ok n
        else CallResult.raises ⟨"ValueError", "boom", ["ValueError", "Exception"]⟩)
          ((0 : Int) + ((2 : Nat) : Int)) = CallResult.ok v ∧
      p ((0 : Int) + ((2 : Nat) : Int)) v = false ∧
      (some "ValueError at n=2: boom" : Option String) =
        some (validationMsg ((0 : Int) + ((2 : Nat) : Int)))) := by
  have hrun : run_for_duration (1 : ℚ)
      (fun n : Int => if n < 2 then CallResult.ok n
        else CallResult.raises ⟨"ValueError", "boom", ["ValueError", "Exception"]⟩)
      0 none (fun _ => (0 : ℚ)) 5 =
      some ⟨2, 1, 0, some "ValueError at n=2: boom"⟩ := by
    decide
  have h := run_for_duration_error_at_count (1 : ℚ)
    (fun n : Int => if n < 2 then CallResult.ok n
      else CallResult.raises ⟨"ValueError", "boom", ["ValueError", "Exception"]⟩)
    0 none (fun _ => (0 : ℚ)) 5 ⟨2, 1, 0, some "ValueError at n=2: boom"⟩
    hrun (by decide)
  simpa using h

/-- **C8.** With a non-positive duration and a monotone clock (so the first
elapsed reading is non-negative), the while-condition fails at its very first
evaluation: the calculation function is never consulted and the result is
`count = 0`, `max_n = 0`, `error = None` — explicitly, the returned record is
`⟨0, 0, elapsed 1, none⟩` for every `func`, so the outcome is independent of
the calculation function. -/
theorem run_for_duration_nonpos_duration {α : Type} (duration : ℚ)
    (func : Int → CallResult α) (start_n : Int)
    (validate_func : Option (Int → α → Bool)) (elapsed : Nat → ℚ) (fuel : Nat)
    (hd : duration ≤ 0) (he : 0 ≤ elapsed 0) (hf : 0 < fuel) :
    run_for_duration duration func start_n validate_func elapsed fuel =
      some ⟨0, 0, elapsed 1, none⟩ := by
  obtain ⟨m, rfl⟩ : ∃ m, fuel = m + 1 := ⟨fuel - 1, by omega⟩
  have hlt : ¬ elapsed 0 < duration := not_lt.mpr (hd.trans he)
  simp [run_for_duration, runLoop, hlt, finishTiming]

/-- Witness for C8: a concrete zero-duration run returns the zero record. -/
theorem run_for_duration_nonpos_duration_witness :
    run_for_duration (0 : ℚ) (fun n => CallResult.ok n) 0 none
      (fun k => (k : ℚ)) 3 = some ⟨0, 0, 1, none⟩ := by
  have h := run_for_duration_nonpos_duration (α := Int) 0
    (fun n => CallResult.ok n) 0 none (fun k => (k : ℚ)) 3
    le_rfl (by norm_num) (by norm_num)
  simpa using h

/-- **C1.** If the validation predicate accepts the first `N` calls and then
returns `false` for the call at index `start_n + N`, the loop halts
immediately: that call is not counted (`count = N`), and the error is the
validation-failure message naming the failing index.  In particular, with
`start_n = 0` and the predicate first failing on the 5th call, `count = 4`
(see the witness). -/
theorem run_for_duration_validation_halt {α : Type} (duration : ℚ)
    (func : Int → CallResult α) (p : Int → α → Bool) (elapsed : Nat → ℚ)
    (start_n : Int) (N m : Nat) (vals : Nat → α)
    (hclk : ∀ i : Nat, i ≤ N → elapsed i < duration)
    (hok : ∀ i : Nat, i < N → func (start_n + (i : Int)) = CallResult.ok (vals i) ∧
      p (start_n + (i : Int)) (vals i) = true)
    (hfN : func (start_n + (N : Int)) = CallResult.ok (vals N))
    (hpN : p (start_n + (N : Int)) (vals N) = false) :
    run_for_duration duration func start_n (some p) elapsed (N + m + 1) =
      some ⟨N, if 0 < N then start_n + (N : Int) - 1 else 0, elapsed (N + 1),
        some (validationMsg (start_n + (N : Int)))⟩ := by
  have hpre := runLoop_prefix duration func (some p) elapsed N (m + 1) 0 start_n 0
    (fun i hi => by simpa using hclk i (Nat.le_of_lt hi))
    (fun i hi => ⟨vals i, (hok i hi).1, fun q hq => by cases hq; exact (hok i hi).2⟩)
  have hshift : N + m + 1 = N + (m + 1) := by omega
  rw [run_for_duration, hshift, hpre]
  rw [runLoop_succ_valfail duration func p elapsed m (0 + N) (start_n + (N : Int)) (0 + N)
    (vals N) (by simpa using hclk N le_rfl) hfN hpN]
  have hkn : 0 + N = N := by omega
  rw [hkn]
  simp only [finishTiming, Nat.zero_add]

/-- Witness for C1: start index 0, predicate accepting exactly the indices
`0 … 3` and rejecting index 4 (the 5th call): the run returns `count = 4`,
`max_n = 3`, and the validation message naming index 4. -/
theorem run_for_duration_validation_halt_witness :
    run_for_duration (1 : ℚ) (fun n : Int => CallResult.ok n)
      0 (some (fun n _ => decide (n ≠ 4))) (fun _ => (0 : ℚ)) 5 =
      some ⟨4, 3, 0, some "Validation failed at n=4"⟩ := by
  have h := run_for_duration_validation_halt (1 : ℚ) (fun n : Int => CallResult.ok n)
    (fun n _ => decide (n ≠ 4)) (fun _ => (0 : ℚ)) 0 4 0 (fun i => (i : Int))
    (fun i _ => by norm_num)
    (fun i hi => by
      refine ⟨by simp, ?_⟩
      have : (0 : Int) + (i : Int) ≠ 4 := by omega
      simpa using this)
    (by simp)
    (by simp)
  refine h.trans ?_
  decide

/-- **C2.** Fault classification.  After `N` validated successes, a call that
raises halts the loop unconditionally with the classified error at the failing
index (first conjunct).  The classification is the ordered `except` chain,
first match winning: an error that is an instance of `RecursionError` gets the
recursion tag regardless of what else it is an instance of; otherwise an
instance of `MemoryError` gets the memory tag; otherwise an instance of
`OverflowError` gets the overflow tag; any other error gets the generic
`"<type name> at n=<n>: <message>"` tag, preserving the underlying message —
in particular a `ValueError` from a negative index is reported via this
generic branch (last conjunct).  (The spec's tag wordings "recursion limit
exceeded", "out of memory", "overflow" denote the code's literal
`RecursionError` / `MemoryError` / `OverflowError` tags.) -/
theorem run_for_duration_fault_classification {α : Type} (duration : ℚ)
    (func : Int → CallResult α) (validate_func : Option (Int → α → Bool))
    (elapsed : Nat → ℚ) (start_n : Int) (N m : Nat) (err : PyError)
    (hclk : ∀ i : Nat, i ≤ N → elapsed i < duration)
    (hok : ∀ i : Nat, i < N → stepOk func validate_func (start_n + (i : Int)))
    (hfN : func (start_n + (N : Int)) = CallResult.raises err) :
    (run_for_duration duration func start_n validate_func elapsed (N + m + 1) =
      some ⟨N, if 0 < N then start_n + (N : Int) - 1 else 0, elapsed (N + 1),
        some (classify_error err (start_n + (N : Int)))⟩) ∧
    (∀ (e : PyError) (n : Int), e.mro.contains "RecursionError" = true →
      classify_error e n = "RecursionError at n=" ++ toString n) ∧
    (∀ (e : PyError) (n : Int), e.mro.contains "RecursionError" = false →
      e.mro.contains "MemoryError" = true →
      classify_error e n = "MemoryError at n=" ++ toString n) ∧
    (∀ (e : PyError) (n : Int), e.mro.contains "RecursionError" = false →
      e.mro.contains "MemoryError" = false →
      e.mro.contains "OverflowError" = true →
      classify_error e n = "OverflowError at n=" ++ toString n) ∧
    (∀ (e : PyError) (n : Int), e.mro.contains "RecursionError" = false →
      e.mro.contains "MemoryError" = false →
      e.mro.contains "OverflowError" = false →
      classify_error e n = e.typeName ++ " at n=" ++ toString n ++ ": " ++ e.msg) := by
  refine ⟨?_, ?_, ?_, ?_, ?_⟩
  · have hpre := runLoop_prefix duration func validate_func elapsed N (m + 1) 0 start_n 0
      (fun i hi => by simpa using hclk i (Nat.le_of_lt hi))
      (fun i hi => hok i hi)
    have hshift : N + m + 1 = N + (m + 1) := by omega
    rw [run_for_duration, hshift, hpre]
    rw [runLoop_succ_raises duration func validate_func elapsed m (0 + N)
      (start_n + (N : Int)) (0 + N) err (by simpa using hclk N le_rfl) hfN]
    simp only [finishTiming, Nat.zero_add]
  · intro e n h1
    have m1 : "RecursionError" ∈ e.mro := by simpa using h1
    simp [classify_error, m1]
  · intro e n h1 h2
    have m1 : "RecursionError" ∉ e.mro := by simpa using h1
    have m2 : "MemoryError" ∈ e.mro := by simpa using h2
    simp [classify_error, m1, m2]
  · intro e n h1 h2 h3
    have m1 : "RecursionError" ∉ e.mro := by simpa using h1
    have m2 : "MemoryError" ∉ e.mro := by simpa using h2
    have m3 : "OverflowError" ∈ e.mro := by simpa using h3
    simp [classify_error, m1, m2, m3]
  · intro e n h1 h2 h3
    have m1 : "RecursionError" ∉ e.mro := by simpa using h1
    have m2 : "MemoryError" ∉ e.mro := by simpa using h2
    have m3 : "OverflowError" ∉ e.mro := by simpa using h3
    simp [classify_error, m1, m2, m3]

/-- Witness for C2: a `ValueError("n must be non-negative")` raised on the very
first call (no successes) halts the run with the generic tag preserving the
message, and each classification branch is exercised on a concrete error. -/
theorem run_for_duration_fault_classification_witness :
    (run_for_duration (1 : ℚ)
      (fun _ : Int => CallResult.raises
        (⟨"ValueError", "n must be non-negative", ["ValueError", "Exception"]⟩ : PyError))
      0 (none : Option (Int → Int → Bool)) (fun _ => (0 : ℚ)) 1 =
      some ⟨0, 0, 0, some "ValueError at n=0: n must be non-negative"⟩) ∧
    (classify_error ⟨"RecursionError", "max depth", ["RecursionError", "RuntimeError", "Exception"]⟩ 7 =
      "RecursionError at n=7") ∧
    (classify_error ⟨"MemoryError", "", ["MemoryError", "Exception"]⟩ 7 =
      "MemoryError at n=7") ∧
    (classify_error ⟨"OverflowError", "", ["OverflowError", "ArithmeticError", "Exception"]⟩ 7 =
      "OverflowError at n=7") := by
  have h := run_for_duration_fault_classification (1 : ℚ)
    (fun _ : Int => CallResult.raises
      (⟨"ValueError", "n must be non-negative", ["ValueError", "Exception"]⟩ : PyError))
    (none : Option (Int → Int → Bool)) (fun _ => (0 : ℚ)) 0 0 0
    ⟨"ValueError", "n must be non-negative", ["ValueError", "Exception"]⟩
    (fun i _ => by norm_num) (fun i hi => absurd hi (Nat.not_lt_zero i)) rfl
  refine ⟨h.1.trans (by decide), ?_, ?_, ?_⟩
  · exact h.2.1 ⟨"RecursionError", "max depth", ["RecursionError", "RuntimeError", "Exception"]⟩ 7 (by decide)
  · exact h.2.2.1 ⟨"MemoryError", "", ["MemoryError", "Exception"]⟩ 7 (by decide) (by decide)
  · exact h.2.2.2.1 ⟨"OverflowError", "", ["OverflowError", "ArithmeticError", "Exception"]⟩ 7
      (by decide) (by decide) (by decide)

/-- `KNOWN_FIBONACCI` from `src/utils/constants.py` (lines 16-54): the known
Fibonacci values, indices 0-20 densely, then checkpoints up to 500. -/
def KNOWN_FIBONACCI : List (Int × Int) :=
  [(0, 0), (1, 1), (2, 1), (3, 2), (4, 3), (5, 5), (6, 8), (7, 13), (8, 21),
   (9, 34), (10, 55), (11, 89), (12, 144), (13, 233), (14, 377), (15, 610),
   (16, 987), (17, 1597), (18, 2584), (19, 4181), (20, 6765), (25, 75025),
   (30, 832040), (35, 9227465), (40, 102334155), (45, 1134903170),
   (50, 12586269025), (55, 139583862445), (60, 1548008755920),
   (70, 190392490709135), (80, 23416728348467685), (90, 2880067194370816120),
   (100, 354224848179261915075), (150, 9969216677189303386214405760200),
   (200, 280571172992510140037611932413038677189525),
   (300, 222232244629420445529739893461909967206666939096499764990979600),
   (500, 139423224561697880139724382870407283950070256587697307264108962948325571622863290691557658876222521294125)]

/-- Python's `n in KNOWN_FIBONACCI` / `KNOWN_FIBONACCI[n]` pair, modelled as
an association-list lookup (the dict's keys are distinct). -/
def known_fib_lookup (n : Int) : Option Int :=
  (KNOWN_FIBONACCI.find? (fun p => p.1 == n)).map (fun p => p.2)

/-- `validate_result` from `src/benchmarking/validators.py` (lines 26-43): if
`n` is in the table, compare against the tabulated value; otherwise return
`True` (cannot validate, assume correct). -/
def validate_result (n : Int) (result : Int) : Bool :=
  match known_fib_lookup n with
  | some expected => result == expected
  | none => true

/-- The `for` loop of `compute_fibonacci_reference`: `a, b = b, a + b`,
iterated. -/
def fibLoop : Nat → Int × Int → Int × Int
  | 0, ab => ab
  | k + 1, (a, b) => fibLoop k (b, a + b)

/-- `compute_fibonacci_reference` from `src/benchmarking/validators.py`
(lines 97-118): raise `ValueError` for `n < 0`, return `n` for `n ≤ 1`, else
iterate `a, b = b, a + b` over `range(2, n + 1)` and return `b`. -/
def compute_fibonacci_reference (n : Int) : Except String Int :=
  if n < 0 then Except.error "n must be non-negative"
  else if n ≤ 1 then Except.ok n
  else Except.ok (fibLoop (n.toNat - 1) (0, 1)).2

/-- **C6.** `validate_result n v` returns the boolean `v == table[n]` whenever
`n` is a key of the known-value table, and returns `true` unconditionally for
every `n` not in the table, regardless of `v` (the "pass when unknown"
policy). -/
theorem validate_result_spec (n v : Int) :
    (∀ expected, known_fib_lookup n = some expected →
      validate_result n v = (v == expected)) ∧
    (known_fib_lookup n = none → validate_result n v = true) := by
  constructor
  · intro expected hfound
    simp [validate_result, hfound]
  · intro hnone
    simp [validate_result, hnone]

/-- Witness for C6: index 10 is tabulated with value 55, so validation at 10
compares against 55 (both outcomes shown); index 21 is not tabulated, so any
value passes. -/
theorem validate_result_spec_witness :
    validate_result 10 55 = ((55 : Int) == 55) ∧
    validate_result 10 56 = ((56 : Int) == 55) ∧
    validate_result 21 123456 = true := by
  refine ⟨(validate_result_spec 10 55).1 55 (by decide),
    (validate_result_spec 10 56).1 55 (by decide),
    (validate_result_spec 21 123456).2 (by decide)⟩

/-- `fibLoop` started from `(F i, F (i+1))` lands on `(F (i+k), F (i+k+1))`. -/
theorem fibLoop_fib (k : Nat) :
    ∀ i : Nat, fibLoop k ((Nat.fib i : Int), (Nat.fib (i + 1) : Int)) =
      ((Nat.fib (i + k) : Int), (Nat.fib (i + k + 1) : Int)) := by
  induction k with
  | zero => intro i; simp [fibLoop]
  | succ k ih =>
    intro i
    have hadd : (Nat.fib i : Int) + (Nat.fib (i + 1) : Int) = (Nat.fib (i + 2) : Int) := by
      rw [Nat.fib_add_two]
      push_cast
      ring
    have h1 : fibLoop (k + 1) ((Nat.fib i : Int), (Nat.fib (i + 1) : Int)) =
        fibLoop k ((Nat.fib (i + 1) : Int), (Nat.fib (i + 1 + 1) : Int)) := by
      show fibLoop k ((Nat.fib (i + 1) : Int), (Nat.fib i : Int) + (Nat.fib (i + 1) : Int)) =
        fibLoop k ((Nat.fib (i + 1) : Int), (Nat.fib (i + 1 + 1) : Int))
      rw [hadd]
    rw [h1, ih (i + 1)]
    have e1 : i + 1 + k = i + (k + 1) := by omega
    rw [e1]

set_option maxRecDepth 20000 in
/-- **C7.** `compute_fibonacci_reference` fails with the invalid-argument
error for every `n < 0`; for every `n ≥ 0` it returns the mathematical
Fibonacci number `Nat.fib` (defined by `F 0 = 0`, `F 1 = 1`,
`F (n+2) = F n + F (n+1)`); and on every index of the `KNOWN_FIBONACCI` table
it returns exactly the tabulated value. -/
theorem compute_fibonacci_reference_spec :
    (∀ n : Int, n < 0 →
      compute_fibonacci_reference n = Except.error "n must be non-negative") ∧
    (∀ n : Int, 0 ≤ n →
      compute_fibonacci_reference n = Except.ok ((Nat.fib n.toNat : Int))) ∧
    (∀ p ∈ KNOWN_FIBONACCI, compute_fibonacci_reference p.1 = Except.ok p.2) := by
  have hfib : ∀ n : Int, 0 ≤ n →
      compute_fibonacci_reference n = Except.ok ((Nat.fib n.toNat : Int)) := by
    intro n hn
    rcases lt_or_le (1 : Int) n with hgt | hle
    · have hndef : compute_fibonacci_reference n =
          Except.ok (fibLoop (n.toNat - 1) (0, 1)).2 := by
        rw [compute_fibonacci_reference, if_neg (by omega), if_neg (by omega)]
      have h01 : ((0 : Int), (1 : Int)) = ((Nat.fib 0 : Int), (Nat.fib (0 + 1) : Int)) := by
        norm_num
      rw [hndef, h01, fibLoop_fib (n.toNat - 1) 0]
      have : 0 + (n.toNat - 1) + 1 = n.toNat := by omega
      rw [this]
    · interval_cases n
      · rw [compute_fibonacci_reference]
        norm_num
      · rw [compute_fibonacci_reference]
        norm_num
  refine ⟨?_, hfib, ?_⟩
  · intro n hn
    rw [compute_fibonacci_reference, if_pos hn]
  · intro p hp
    have hkey : 0 ≤ p.1 ∧ (Nat.fib p.1.toNat : Int) = p.2 := by
      fin_cases hp <;> constructor <;> decide
    rw [hfib p.1 hkey.1, hkey.2]

/-- Witness for C7: a negative index errors; `F 20` is computed and matches
the tabulated checkpoint value 6765. -/
theorem compute_fibonacci_reference_spec_witness :
    compute_fibonacci_reference (-1) = Except.error "n must be non-negative" ∧
    compute_fibonacci_reference 20 = Except.ok ((Nat.fib (20 : Int).toNat : Int)) ∧
    compute_fibonacci_reference 20 = Except.ok 6765 := by
  refine ⟨compute_fibonacci_reference_spec.1 (-1) (by norm_num),
    compute_fibonacci_reference_spec.2.1 20 (by norm_num),
    compute_fibonacci_reference_spec.2.2 (20, 6765) (by decide)⟩

/-- A Fibonacci technique as seen by `BenchmarkRunner.run_single`
(`src/utils/base_technique.py` metadata plus the three callables used by
`benchmark_runner.py`): static metadata, the `calculate` entry point, and the
optional `setup` / `teardown` hooks, each of which may raise. -/
structure Technique where
  name : String
  description : String
  time_complexity : String
  space_complexity : String
  setup : CallResult Unit
  calculate : Int → CallResult Int
  teardown : CallResult Unit

/-- `BenchmarkResult` dataclass from `src/benchmarking/benchmark_runner.py`
(lines 27-61).  The `timestamp` field is environmental (`datetime.now`) and
informational only, so it is not modelled. -/
structure BenchmarkResult where
  technique_name : String
  description : String
  count : Nat
  max_n : Int
  duration : ℚ
  time_complexity : String
  space_complexity : String
  error : Option String
deriving DecidableEq

/-- `BenchmarkResult.success` property (`benchmark_runner.py` lines 53-56). -/
def BenchmarkResult.success (r : BenchmarkResult) : Bool :=
  r.error.isNone

/-- `BenchmarkResult.rate` property (`benchmark_runner.py` lines 58-61). -/
def BenchmarkResult.rate (r : BenchmarkResult) : ℚ :=
  if 0 < r.duration then (r.count : ℚ) / r.duration else 0

/-- `BenchmarkRunner.run_single` (`benchmark_runner.py` lines 179-229):
1. setup phase — a raising setup hook short-circuits to a synthesized
   zero-effort result with error `"Setup failed: <message>"`;
2. timed run via `run_for_duration` with `start_n = 0` and `validate_result`
   as the predicate when validation is enabled;
3. teardown phase — a raising teardown hook is ignored (`except: pass`);
4. assemble the `BenchmarkResult` from the timing result plus the technique's
   static metadata.
The timer's clock and fuel environment is threaded through; `none` means the
timed loop ran out of fuel. -/
def run_single (duration : ℚ) (validate : Bool) (t : Technique)
    (elapsed : Nat → ℚ) (fuel : Nat) : Option BenchmarkResult :=
  match t.setup with
  | .raises e =>
    some { technique_name := t.name
           description := t.description
           count := 0
           max_n := 0
           duration := 0
           time_complexity := t.time_complexity
           space_complexity := t.space_complexity
           error := some ("Setup failed: " ++ e.msg) }
  | .ok _ =>
    match run_for_duration duration t.calculate 0
        (if validate then some validate_result else none) elapsed fuel with
    | none => none
    | some tr =>
      match t.teardown with
      | .ok _ =>
        some { technique_name := t.name
               description := t.description
               count := tr.count
               max_n := tr.max_n
               duration := tr.actual_duration
               time_complexity := t.time_complexity
               space_complexity := t.space_complexity
               error := tr.error }
      | .raises _ =>
        some { technique_name := t.name
               description := t.description
               count := tr.count
               max_n := tr.max_n
               duration := tr.actual_duration
               time_complexity := t.time_complexity
               space_complexity := t.space_complexity
               error := tr.error }

/-- **C4.** When the setup hook raises, `run_single` returns the synthesized
zero-effort result — `count = 0`, `max_n = 0`, `duration = 0`,
`error = "Setup failed: <message>"` — with the technique's static metadata
copied; the timed run and the teardown hook are skipped entirely: the result
is the same for every calculation function, every teardown hook, and every
timer environment. -/
theorem run_single_setup_failure (duration : ℚ) (validate : Bool)
    (t : Technique) (elapsed : Nat → ℚ) (fuel : Nat) (e : PyError)
    (hs : t.setup = CallResult.raises e) :
    (run_single duration validate t elapsed fuel =
      some { technique_name := t.name
             description := t.description
             count := 0
             max_n := 0
             duration := 0
             time_complexity := t.time_complexity
             space_complexity := t.space_complexity
             error := some ("Setup failed: " ++ e.msg) }) ∧
    (∀ (calc2 : Int → CallResult Int) (td2 : CallResult Unit)
        (elapsed2 : Nat → ℚ) (fuel2 : Nat),
      run_single duration validate
        { t with calculate := calc2, teardown := td2 } elapsed2 fuel2 =
        run_single duration validate t elapsed fuel) := by
  have main : ∀ (t2 : Technique) (el : Nat → ℚ) (fl : Nat),
      t2.setup = CallResult.raises e →
      run_single duration validate t2 el fl =
        some { technique_name := t2.name
               description := t2.description
               count := 0
               max_n := 0
               duration := 0
               time_complexity := t2.time_complexity
               space_complexity := t2.space_complexity
               error := some ("Setup failed: " ++ e.msg) } := by
    intro t2 el fl hs2
    rw [run_single, hs2]
  constructor
  · exact main t elapsed fuel hs
  · intro calc2 td2 elapsed2 fuel2
    rw [main { t with calculate := calc2, teardown := td2 } elapsed2 fuel2 hs,
      main t elapsed fuel hs]

/-- Witness for C4: a technique whose setup raises `RuntimeError("boom")`
yields the zero-effort result with error `"Setup failed: boom"`. -/
theorem run_single_setup_failure_witness :
    run_single (1 : ℚ) true
      ⟨"X", "desc", "O(1)", "O(1)",
        CallResult.raises ⟨"RuntimeError", "boom", ["RuntimeError", "Exception"]⟩,
        fun n => CallResult.ok n, CallResult.ok ()⟩
      (fun _ => (0 : ℚ)) 3 =
      some ⟨"X", "desc", 0, 0, 0, "O(1)", "O(1)", some "Setup failed: boom"⟩ := by
  have h := run_single_setup_failure (1 : ℚ) true
    ⟨"X", "desc", "O(1)", "O(1)",
      CallResult.raises ⟨"RuntimeError", "boom", ["RuntimeError", "Exception"]⟩,
      fun n => CallResult.ok n, CallResult.ok ()⟩
    (fun _ => (0 : ℚ)) 3 ⟨"RuntimeError", "boom", ["RuntimeError", "Exception"]⟩ rfl
  exact h.1.trans (by decide)

/-- **C5.** A fault raised by the teardown hook is swallowed unconditionally:
whenever setup succeeds and the timed loop finishes with `tr`, `run_single`
returns normally and the returned record's `count`, `max_n`, `duration` and
`error` are exactly those of `tr` — for every teardown hook, raising or not
(the statement quantifies over `t`, whose `teardown` is unconstrained) — and
swapping one teardown hook for any other never changes the result. -/
theorem run_single_teardown_swallowed (duration : ℚ) (validate : Bool)
    (t : Technique) (elapsed : Nat → ℚ) (fuel : Nat) (tr : TimingResult)
    (hs : t.setup = CallResult.ok ())
    (hrun : run_for_duration duration t.calculate 0
      (if validate then some validate_result else none) elapsed fuel = some tr) :
    (run_single duration validate t elapsed fuel =
      some { technique_name := t.name
             description := t.description
             count := tr.count
             max_n := tr.max_n
             duration := tr.actual_duration
             time_complexity := t.time_complexity
             space_complexity := t.space_complexity
             error := tr.error }) ∧
    (∀ td1 td2 : CallResult Unit,
      run_single duration validate { t with teardown := td1 } elapsed fuel =
        run_single duration validate { t with teardown := td2 } elapsed fuel) := by
  have main : ∀ t2 : Technique, t2.setup = CallResult.ok () →
      run_for_duration duration t2.calculate 0
        (if validate then some validate_result else none) elapsed fuel = some tr →
      run_single duration validate t2 elapsed fuel =
        some { technique_name := t2.name
               description := t2.description
               count := tr.count
               max_n := tr.max_n
               duration := tr.actual_duration
               time_complexity := t2.time_complexity
               space_complexity := t2.space_complexity
               error := tr.error } := by
    intro t2 hs2 hr2
    rw [run_single, hs2, hr2]
    cases t2.teardown <;> rfl
  constructor
  · exact main t hs hrun
  · intro td1 td2
    rw [main { t with teardown := td1 } hs hrun,
      main { t with teardown := td2 } hs hrun]

/-- Witness for C5: setup succeeds, the timed loop does two iterations, and
the technique's teardown raises — the result still carries the timing data. -/
theorem run_single_teardown_swallowed_witness :
    run_single (1 : ℚ) false
      ⟨"Y", "desc", "O(n)", "O(1)", CallResult.ok (),
        fun n => CallResult.ok n,
        CallResult.raises ⟨"RuntimeError", "teardown boom", ["RuntimeError", "Exception"]⟩⟩
      (fun k => if k < 2 then (0 : ℚ) else 2) 5 =
      some ⟨"Y", "desc", 2, 1, 2, "O(n)", "O(1)", none⟩ := by
  have hrun : run_for_duration (1 : ℚ)
      (⟨"Y", "desc", "O(n)", "O(1)", CallResult.ok (),
        fun n => CallResult.ok n,
        CallResult.raises ⟨"RuntimeError", "teardown boom", ["RuntimeError", "Exception"]⟩⟩ :
          Technique).calculate 0
      (if false then some validate_result else none)
      (fun k => if k < 2 then (0 : ℚ) else 2) 5 = some ⟨2, 1, 2, none⟩ := by
    decide
  have h := run_single_teardown_swallowed (1 : ℚ) false
    ⟨"Y", "desc", "O(n)", "O(1)", CallResult.ok (),
      fun n => CallResult.ok n,
      CallResult.raises ⟨"RuntimeError", "teardown boom", ["RuntimeError", "Exception"]⟩⟩
    (fun k => if k < 2 then (0 : ℚ) else 2) 5 ⟨2, 1, 2, none⟩ rfl hrun
  exact h.1.trans (by decide)

/-- `BenchmarkSummary` dataclass from `src/benchmarking/benchmark_runner.py`
(lines 64-96).  The `timestamp` field is environmental and not modelled. -/
structure BenchmarkSummary where
  results : List BenchmarkResult
  total_duration : ℚ

/-- Python's `sorted(xs, key, reverse)` is the stable sort by the key; with
`reverse=True` equal keys still keep their original relative order, which is
exactly `mergeSort` under the total preorder "later key not larger". -/
def get_sorted_by_count (s : BenchmarkSummary) (descending : Bool) : List BenchmarkResult :=
  if descending then s.results.mergeSort (fun a b => decide (b.count ≤ a.count))
  else s.results.mergeSort (fun a b => decide (a.count ≤ b.count))

/-- `get_sorted_by_max_n` (`benchmark_runner.py` lines 82-84), as above. -/
def get_sorted_by_max_n (s : BenchmarkSummary) (descending : Bool) : List BenchmarkResult :=
  if descending then s.results.mergeSort (fun a b => decide (b.max_n ≤ a.max_n))
  else s.results.mergeSort (fun a b => decide (a.max_n ≤ b.max_n))

/-- Python's `max(iterable, key=key)`: scan left to right, replacing the
current best only when the new key is strictly larger, so the first occurrence
of the maximal key wins. -/
def pyMaxBy {β : Type} (lt : β → β → Bool) (key : BenchmarkResult → β) :
    BenchmarkResult → List BenchmarkResult → BenchmarkResult
  | best, [] => best
  | best, y :: ys => pyMaxBy lt key (if lt (key best) (key y) then y else best) ys

/-- `get_fastest` (`benchmark_runner.py` lines 86-90): `None` on empty,
else `max(results, key=lambda r: r.count)`. -/
def get_fastest (s : BenchmarkSummary) : Option BenchmarkResult :=
  match s.results with
  | [] => none
  | x :: xs => some (pyMaxBy (fun a b => decide (a < b)) (fun r => r.count) x xs)

/-- `get_highest_n` (`benchmark_runner.py` lines 92-96): `None` on empty,
else `max(results, key=lambda r: r.max_n)`. -/
def get_highest_n (s : BenchmarkSummary) : Option BenchmarkResult :=
  match s.results with
  | [] => none
  | x :: xs => some (pyMaxBy (fun a b => decide (a < b)) (fun r => r.max_n) x xs)

/-- Characterization of Python's `max`: the result dominates every scanned
element and the initial best, and it is either the initial best itself or the
first list element strictly exceeding everything before it. -/
theorem pyMaxBy_spec {β : Type} [LinearOrder β] (key : BenchmarkResult → β) :
    ∀ (l : List BenchmarkResult) (best m : BenchmarkResult),
      pyMaxBy (fun a b => decide (a < b)) key best l = m →
      (∀ x ∈ l, key x ≤ key m) ∧ key best ≤ key m ∧
        (m = best ∨ ∃ l₁ l₂, l = l₁ ++ m :: l₂ ∧ key best < key m ∧
          ∀ x ∈ l₁, key x < key m) := by
  intro l
  induction l with
  | nil =>
    intro best m hm
    cases hm
    exact ⟨by simp, le_rfl, Or.inl rfl⟩
  | cons y ys ih =>
    intro best m hm
    rw [pyMaxBy] at hm
    by_cases hlt : key best < key y
    · rw [if_pos (by simpa using hlt)] at hm
      obtain ⟨hall, hyle, hdisj⟩ := ih y m hm
      refine ⟨?_, hlt.le.trans hyle, ?_⟩
      · intro x hx
        rcases List.mem_cons.mp hx with hx | hx
        · exact hx ▸ hyle
        · exact hall x hx
      · rcases hdisj with hm | ⟨l₁, l₂, hl, hylt, hl₁⟩
        · exact Or.inr ⟨[], ys, by rw [hm, List.nil_append], hm ▸ hlt, by simp⟩
        · refine Or.inr ⟨y :: l₁, l₂, by rw [hl]; rfl, hlt.trans hylt, ?_⟩
          intro x hx
          rcases List.mem_cons.mp hx with hx | hx
          · exact hx ▸ hylt
          · exact hl₁ x hx
    · rw [if_neg (by simpa using hlt)] at hm
      obtain ⟨hall, hble, hdisj⟩ := ih best m hm
      have hyb : key y ≤ key best := le_of_not_lt hlt
      refine ⟨?_, hble, ?_⟩
      · intro x hx
        rcases List.mem_cons.mp hx with hx | hx
        · exact hx ▸ (hyb.trans hble)
        · exact hall x hx
      · rcases hdisj with hm | ⟨l₁, l₂, hl, hblt, hl₁⟩
        · exact Or.inl hm
        · refine Or.inr ⟨y :: l₁, l₂, by rw [hl]; rfl, hblt, ?_⟩
          intro x hx
          rcases List.mem_cons.mp hx with hx | hx
          · exact hx ▸ (hyb.trans_lt hblt)
          · exact hl₁ x hx

/-- Stability of `mergeSort`, in filter form: elements sharing one key value
keep exactly their original order (and multiplicity). -/
theorem mergeSort_filter_stable {γ : Type} (le : γ → γ → Bool)
    (htrans : ∀ (a b c : γ), le a b → le b c → le a c)
    (htotal : ∀ (a b : γ), le a b || le b a)
    (l : List γ) (p : γ → Bool)
    (hp : ∀ a b, p a = true → p b = true → le a b = true) :
    (l.mergeSort le).filter p = l.filter p := by
  have hpair : (l.filter p).Pairwise (fun a b => le a b) :=
    List.pairwise_of_forall_mem_list
      (fun a ha b hb => hp a b (List.of_mem_filter ha) (List.of_mem_filter hb))
  have h1 : List.Sublist (l.filter p) (l.mergeSort le) :=
    List.sublist_mergeSort htrans htotal hpair (List.filter_sublist l)
  have h2 : List.Sublist ((l.filter p).filter p) ((l.mergeSort le).filter p) :=
    h1.filter p
  have h3 : (l.filter p).filter p = l.filter p := by
    rw [List.filter_filter]
    exact List.filter_congr (fun a _ => by cases hpa : p a <;> simp [hpa])
  rw [h3] at h2
  have hlen : ((l.mergeSort le).filter p).length = (l.filter p).length :=
    ((List.mergeSort_perm l le).filter p).length_eq
  exact (h2.eq_of_length hlen.symm).symm

/-- **C9.** The derived views of a `BenchmarkSummary` are pure functions of
`results` (so `results` is never mutated and repeated calls agree
definitionally), and:
`get_sorted_by_count`/`get_sorted_by_max_n` (descending) return lists that are
descending-sorted, are permutations of `results`, and are stable — for each
key value, the elements with that key appear exactly as in `results`;
`get_fastest`/`get_highest_n` return `none` exactly when `results` is empty,
and otherwise the first result in original order attaining the maximal
`count` (resp. `max_n`): it dominates every result and everything strictly
before it in `results` has a strictly smaller key. -/
theorem summary_views_spec (s : BenchmarkSummary) :
    ((get_sorted_by_count s true).Pairwise (fun a b => b.count ≤ a.count)) ∧
    ((get_sorted_by_count s true).Perm s.results) ∧
    (∀ c : Nat, (get_sorted_by_count s true).filter (fun r => r.count == c) =
      s.results.filter (fun r => r.count == c)) ∧
    ((get_sorted_by_max_n s true).Pairwise (fun a b => b.max_n ≤ a.max_n)) ∧
    ((get_sorted_by_max_n s true).Perm s.results) ∧
    (∀ c : Int, (get_sorted_by_max_n s true).filter (fun r => r.max_n == c) =
      s.results.filter (fun r => r.max_n == c)) ∧
    (get_fastest s = none ↔ s.results = []) ∧
    (∀ r, get_fastest s = some r →
      (∀ x ∈ s.results, x.count ≤ r.count) ∧
      ∃ l₁ l₂, s.results = l₁ ++ r :: l₂ ∧ ∀ x ∈ l₁, x.count < r.count) ∧
    (get_highest_n s = none ↔ s.results = []) ∧
    (∀ r, get_highest_n s = some r →
      (∀ x ∈ s.results, x.max_n ≤ r.max_n) ∧
      ∃ l₁ l₂, s.results = l₁ ++ r :: l₂ ∧ ∀ x ∈ l₁, x.max_n < r.max_n) := by
  have htransC : ∀ (a b c : BenchmarkResult),
      decide (b.count ≤ a.count) → decide (c.count ≤ b.count) →
      decide (c.count ≤ a.count) := by
    intro a b c h1 h2
    simp only [decide_eq_true_eq] at h1 h2 ⊢
    omega
  have htotalC : ∀ (a b : BenchmarkResult),
      decide (b.count ≤ a.count) || decide (a.count ≤ b.count) := by
    intro a b
    simpa using Nat.le_total b.count a.count
  have htransM : ∀ (a b c : BenchmarkResult),
      decide (b.max_n ≤ a.max_n) → decide (c.max_n ≤ b.max_n) →
      decide (c.max_n ≤ a.max_n) := by
    intro a b c h1 h2
    simp only [decide_eq_true_eq] at h1 h2 ⊢
    omega
  have htotalM : ∀ (a b : BenchmarkResult),
      decide (b.max_n ≤ a.max_n) || decide (a.max_n ≤ b.max_n) := by
    intro a b
    simpa using Int.le_total b.max_n a.max_n
  refine ⟨?_, ?_, ?_, ?_, ?_, ?_, ?_, ?_, ?_, ?_⟩
  · have h := List.sorted_mergeSort htransC htotalC s.results
    rw [get_sorted_by_count, if_pos rfl]
    exact h.imp (fun hab => by simpa using hab)
  · rw [get_sorted_by_count, if_pos rfl]
    exact List.mergeSort_perm s.results _
  · intro c
    rw [get_sorted_by_count, if_pos rfl]
    exact mergeSort_filter_stable _ htransC htotalC s.results _
      (fun a b ha hb => by
        have ha2 : a.count = c := by simpa using ha
        have hb2 : b.count = c := by simpa using hb
        simp [ha2, hb2])
  · have h := List.sorted_mergeSort htransM htotalM s.results
    rw [get_sorted_by_max_n, if_pos rfl]
    exact h.imp (fun hab => by simpa using hab)
  · rw [get_sorted_by_max_n, if_pos rfl]
    exact List.mergeSort_perm s.results _
  · intro c
    rw [get_sorted_by_max_n, if_pos rfl]
    exact mergeSort_filter_stable _ htransM htotalM s.results _
      (fun a b ha hb => by
        have ha2 : a.max_n = c := by simpa using ha
        have hb2 : b.max_n = c := by simpa using hb
        simp [ha2, hb2])
  · cases hres : s.results with
    | nil => simp [get_fastest, hres]
    | cons x xs => simp [get_fastest, hres]
  · intro r hr
    rw [get_fastest] at hr
    cases hres : s.results with
    | nil => rw [hres] at hr; cases hr
    | cons x xs =>
      rw [hres] at hr
      obtain ⟨hall, hxle, hdisj⟩ :=
        pyMaxBy_spec (fun r => r.count) xs x r (by injection hr)
      constructor
      · intro y hy
        rcases List.mem_cons.mp hy with hy | hy
        · exact hy ▸ hxle
        · exact hall y hy
      · rcases hdisj with hrx | ⟨l₁, l₂, hl, hxlt, hl₁⟩
        · exact ⟨[], xs, by rw [hrx, List.nil_append], by simp⟩
        · refine ⟨x :: l₁, l₂, by rw [hl, List.cons_append], ?_⟩
          intro y hy
          rcases List.mem_cons.mp hy with hy | hy
          · exact hy ▸ hxlt
          · exact hl₁ y hy
  · cases hres : s.results with
    | nil => simp [get_highest_n, hres]
    | cons x xs => simp [get_highest_n, hres]
  · intro r hr
    rw [get_highest_n] at hr
    cases hres : s.results with
    | nil => rw [hres] at hr; cases hr
    | cons x xs =>
      rw [hres] at hr
      obtain ⟨hall, hxle, hdisj⟩ :=
        pyMaxBy_spec (fun r => r.max_n) xs x r (by injection hr)
      constructor
      · intro y hy
        rcases List.mem_cons.mp hy with hy | hy
        · exact hy ▸ hxle
        · exact hall y hy
      · rcases hdisj with hrx | ⟨l₁, l₂, hl, hxlt, hl₁⟩
        · exact ⟨[], xs, by rw [hrx, List.nil_append], by simp⟩
        · refine ⟨x :: l₁, l₂, by rw [hl, List.cons_append], ?_⟩
          intro y hy
          rcases List.mem_cons.mp hy with hy | hy
          · exact hy ▸ hxlt
          · exact hl₁ y hy

/-- Witness for C9: on a concrete three-result summary whose maximal count 3
is attained twice, `get_fastest` picks the first attaining result (name "b"),
every result's count is dominated, and everything before it is strictly
smaller. -/
theorem summary_views_spec_witness :
    (∀ x ∈ ((⟨[⟨"a", "", 1, 0, 1, "", "", none⟩, ⟨"b", "", 3, 2, 1, "", "", none⟩,
        ⟨"c", "", 3, 2, 1, "", "", none⟩], 3⟩ : BenchmarkSummary)).results,
      x.count ≤ ((⟨"b", "", 3, 2, 1, "", "", none⟩ : BenchmarkResult)).count) ∧
    (∃ l₁ l₂, ((⟨[⟨"a", "", 1, 0, 1, "", "", none⟩, ⟨"b", "", 3, 2, 1, "", "", none⟩,
        ⟨"c", "", 3, 2, 1, "", "", none⟩], 3⟩ : BenchmarkSummary)).results =
        l₁ ++ ((⟨"b", "", 3, 2, 1, "", "", none⟩ : BenchmarkResult)) :: l₂ ∧
      ∀ x ∈ l₁, x.count < ((⟨"b", "", 3, 2, 1, "", "", none⟩ : BenchmarkResult)).count) := by
  exact (summary_views_spec
    (⟨[⟨"a", "", 1, 0, 1, "", "", none⟩, ⟨"b", "", 3, 2, 1, "", "", none⟩,
      ⟨"c", "", 3, 2, 1, "", "", none⟩], 3⟩ : BenchmarkSummary)).2.2.2.2.2.2.2.1
    ⟨"b", "", 3, 2, 1, "", "", none⟩ (by decide)
